import Mathlib

/-!
# Verification of the contingent-liabilities extraction scripts

A shallow embedding, over `List Char`, of the text-processing core of the
repository's extraction scripts:

* `extraction_code.py` — column selection, regex section-boundary detection,
  and whitespace-based table reconstruction
  (`extract_contingent_liabilities_tables`), plus the line filter and
  fixed-width row builder of `save_results_to_word`;
* `extyraction_code.py` — the spreadsheet sheet-name logic of
  `save_simple_results`;
* `updated_ready.py` / `ready_pipeline.py` — the page-keeping decision of
  `extract_cg`, the tolerant JSON response parsing, and `HostedLLM._call`.

Python strings are modelled as `List Char`; `re` patterns used by the code
are implemented as dedicated matchers with the same semantics on the
character classes involved; fallible code (exceptions) is modelled with
`Option`/`Except`.  External collaborators (`json.loads`, the HTTP gateway,
`ast.literal_eval`) are parameters of the functions that call them.
-/

/-! ## Python-style character and string primitives -/

/-- Python's whitespace class (`\s` in `re`, and the default `str.strip` /
`str.split` separators, restricted to ASCII): space, tab, newline, carriage
return, vertical tab, form feed. -/
def isSpace (c : Char) : Bool :=
  c = ' ' || c = '\t' || c = '\n' || c = '\r' || c = '\x0b' || c = '\x0c'

/-- Python's `\w` word-character class (ASCII part): letters, digits, `_`. -/
def isWordChar (c : Char) : Bool :=
  c.isAlphanum || c = '_'

/-- Python `str.lower` (ASCII). -/
def lowerL (l : List Char) : List Char := l.map Char.toLower

/-- Drop trailing whitespace (the right half of `str.strip`). -/
def dropEndSpaces : List Char → List Char
  | [] => []
  | c :: rest =>
    let r := dropEndSpaces rest
    if r = [] && isSpace c then [] else c :: r

/-- Python `str.strip()`: remove leading and trailing whitespace. -/
def pyStrip (l : List Char) : List Char :=
  dropEndSpaces (l.dropWhile isSpace)

/-- Whether `needle` is a prefix of `hay` (used to build substring search). -/
def listPre : List Char → List Char → Bool
  | [], _ => true
  | _ :: _, [] => false
  | a :: as, b :: bs => a = b && listPre as bs

/-- Python's `needle in hay` substring test. -/
def containsSub (hay needle : List Char) : Bool :=
  match hay with
  | [] => listPre needle []
  | _ :: t => listPre needle hay || containsSub t needle

/-- Python `text.split('\n')`: split at every newline, keeping empty parts. -/
def splitOnNl : List Char → List (List Char)
  | [] => [[]]
  | c :: rest =>
    match splitOnNl rest with
    | [] => if c = '\n' then [[], []] else [[c]]
    | h :: t => if c = '\n' then [] :: h :: t else (c :: h) :: t

/-- Worker for `pySplitWs`: `cur` is the current word, reversed (empty when
between words). -/
def pySplitWsGo (cur : List Char) : List Char → List (List Char)
  | [] => if cur.isEmpty then [] else [cur.reverse]
  | c :: t =>
    if isSpace c then
      if cur.isEmpty then pySplitWsGo [] t else cur.reverse :: pySplitWsGo [] t
    else pySplitWsGo (c :: cur) t

/-- Python `line.split()`: split on runs of whitespace, dropping empties. -/
def pySplitWs (cs : List Char) : List (List Char) :=
  pySplitWsGo [] cs

/-- Worker for `splitWide`: `seg` is the current segment so far (reversed,
without trailing whitespace), `pend` the pending whitespace run (reversed)
not yet known to be a delimiter.  A run of two or more whitespace characters
followed by a non-whitespace character (or the end) closes the segment; a
single whitespace character is folded back into the segment. -/
def splitWideGo (seg pend : List Char) : List Char → List (List Char)
  | [] =>
    if 2 ≤ pend.length then [seg.reverse, []] else [(pend ++ seg).reverse]
  | c :: t =>
    if isSpace c then splitWideGo seg (c :: pend) t
    else
      if 2 ≤ pend.length then seg.reverse :: splitWideGo [c] [] t
      else splitWideGo (c :: (pend ++ seg)) [] t

/-- Python `re.split(r'\s{2,}', line)`: segments separated by maximal whitespace
runs of length at least two (a single whitespace character stays inside its
segment, as in the source's "split by significant spacing"). -/
def splitWide (cs : List Char) : List (List Char) :=
  splitWideGo [] [] cs

/-! ## Regex matchers of the section extractor (`extraction_code.py`)

Each `re` pattern the source searches with is implemented as a dedicated
matcher.  A rest-style matcher consumes a match at the head of its input and
returns the remaining characters; `searchM` turns it into `re.search`,
scanning positions left to right and returning the absolute start and end
offsets of the leftmost match. -/

/-- Match a literal string at the head of the input. -/
def matchLit : List Char → List Char → Option (List Char)
  | [], cs => some cs
  | _ :: _, [] => none
  | l :: ls, c :: cs => if c = l then matchLit ls cs else none

/-- Characters of the trailing class `[ieysn]` in
`contingent\s+liabilit[ieysn]*`. -/
def isIEYSN (c : Char) : Bool :=
  c = 'i' || c = 'e' || c = 'y' || c = 's' || c = 'n'

/-- Matcher for `contingent\s+liabilit[ieysn]*` (the third start pattern):
the literal `contingent`, at least one whitespace character, the literal
`liabilit`, then a greedy run of `[ieysn]`. -/
def matchCL (cs : List Char) : Option (List Char) :=
  match matchLit ("contingent".toList) cs with
  | none => none
  | some r =>
    match r with
    | [] => none
    | c :: r2 =>
      if isSpace c then
        match matchLit ("liabilit".toList) (r2.dropWhile isSpace) with
        | some r3 => some (r3.dropWhile isIEYSN)
        | none => none
      else none

/-- Matcher for `b\)\s*contingent\s+liabilit[ieysn]*` (first start pattern). -/
def matchP1 (cs : List Char) : Option (List Char) :=
  match matchLit ("b)".toList) cs with
  | some r => matchCL (r.dropWhile isSpace)
  | none => none

/-- Matcher for `\(b\)\s*contingent\s+liabilit[ieysn]*` (second start
pattern). -/
def matchP2 (cs : List Char) : Option (List Char) :=
  match matchLit ("(b)".toList) cs with
  | some r => matchCL (r.dropWhile isSpace)
  | none => none

/-- Run `re.search` for a rest-style matcher: the `(start, end)` offsets of the
leftmost match. -/
def searchM (m : List Char → Option (List Char)) : List Char → Option (Nat × Nat)
  | [] =>
    match m [] with
    | some _ => some (0, 0)
    | none => none
  | c :: t =>
    match m (c :: t) with
    | some rest => some (0, (c :: t).length - rest.length)
    | none => (searchM m t).map (fun p => (p.1 + 1, p.2 + 1))

/-- The source's start-pattern loop: try the three heading patterns in order
and use the first one that matches anywhere in the (lowercased) text. -/
def startSearch (lower : List Char) : Option (Nat × Nat) :=
  match searchM matchP1 lower with
  | some r => some r
  | none =>
    match searchM matchP2 lower with
    | some r => some r
    | none => searchM matchCL lower

/-- Start-only matcher with left context for the end patterns: `prev` is the
character before the current position (`none` at the start of the searched
slice), needed for the `\b` word boundaries. -/
def searchCtx (m : Option Char → List Char → Bool) :
    Option Char → List Char → Option Nat
  | prev, [] => if m prev [] then some 0 else none
  | prev, c :: t =>
    if m prev (c :: t) then some 0
    else (searchCtx m (some c) t).map (· + 1)

/-- Word boundary before a word character: the previous character must be
absent or a non-word character. -/
def boundaryBefore (prev : Option Char) : Bool :=
  match prev with
  | none => true
  | some p => !isWordChar p

/-- End pattern `\bc\)\s*`. -/
def matchEndC (prev : Option Char) (cs : List Char) : Bool :=
  match cs with
  | 'c' :: ')' :: _ => boundaryBefore prev
  | _ => false

/-- End pattern `\(c\)\s*`. -/
def matchEndParenC (_ : Option Char) (cs : List Char) : Bool :=
  match cs with
  | '(' :: 'c' :: ')' :: _ => true
  | _ => false

/-- End pattern `\bd\)\s*`. -/
def matchEndD (prev : Option Char) (cs : List Char) : Bool :=
  match cs with
  | 'd' :: ')' :: _ => boundaryBefore prev
  | _ => false

/-- End pattern `\(d\)\s*`. -/
def matchEndParenD (_ : Option Char) (cs : List Char) : Bool :=
  match cs with
  | '(' :: 'd' :: ')' :: _ => true
  | _ => false

/-- End pattern `\n\s*\d+\.\s*`: a newline, optional whitespace, at least one
digit, then a dot. -/
def matchEndNum (_ : Option Char) (cs : List Char) : Bool :=
  match cs with
  | '\n' :: rest =>
    let r := rest.dropWhile isSpace
    !(r.takeWhile Char.isDigit).isEmpty &&
      (match r.dropWhile Char.isDigit with
       | '.' :: _ => true
       | _ => false)
  | _ => false

/-- Character class `[A-Z]`. -/
def isUpperAZ (c : Char) : Bool := 'A' ≤ c && c ≤ 'Z'

/-- Character class `[A-Z\s]`. -/
def isUpperOrSpace (c : Char) : Bool := isUpperAZ c || isSpace c

/-- After the leading `[A-Z]` of `\n\s*[A-Z][A-Z\s]{10,}\n`: there must be
`need` more characters of `[A-Z\s]` and then, after possibly more such
characters, a newline. -/
def capsTail : Nat → List Char → Bool
  | _, [] => false
  | need, c :: rest =>
    if need = 0 && c = '\n' then true
    else if isUpperOrSpace c then capsTail (need - 1) rest
    else false

/-- End pattern `\n\s*[A-Z][A-Z\s]{10,}\n` (next all-caps heading line). -/
def matchEndCaps (_ : Option Char) (cs : List Char) : Bool :=
  match cs with
  | '\n' :: rest =>
    match rest.dropWhile isSpace with
    | c :: r3 => isUpperAZ c && capsTail 10 r3
    | [] => false
  | _ => false

/-- The source's `end_patterns` loop: the six next-heading patterns tried in
order on the slice after `search_start`; the first pattern with a match
anywhere in the slice supplies the match start. -/
def firstEndMatch (suffix : List Char) : Option Nat :=
  match searchCtx matchEndC none suffix with
  | some j => some j
  | none =>
    match searchCtx matchEndParenC none suffix with
    | some j => some j
    | none =>
      match searchCtx matchEndD none suffix with
      | some j => some j
      | none =>
        match searchCtx matchEndParenD none suffix with
        | some j => some j
        | none =>
          match searchCtx matchEndNum none suffix with
          | some j => some j
          | none => searchCtx matchEndCaps none suffix

/-- Section end offset: search the lowercased text from `searchStart`
(Python slice `text_lower[search_start:]`); a match at slice offset `j`
gives `search_start + j`, otherwise the end of the text. -/
def sectionEndPos (lower : List Char) (searchStart : Nat) : Nat :=
  match firstEndMatch (lower.drop searchStart) with
  | some j => searchStart + j
  | none => lower.length

/-- Section boundary detection of `extract_contingent_liabilities_tables`:
find the first start pattern's leftmost match `(s, e)` in the lowercased
text, then the end starting 50 characters after the match end. -/
def sectionBounds (text : List Char) : Option (Nat × Nat) :=
  match startSearch (lowerL text) with
  | none => none
  | some (s, e) => some (s, sectionEndPos (lowerL text) (e + 50))

/-- The extracted section: `relevant_text[start:end].strip()`. -/
def sectionText (text : List Char) : Option (List Char) :=
  match sectionBounds text with
  | none => none
  | some (s, e) => some (pyStrip ((text.drop s).take (e - s)))

/-! ## Table reconstruction from section text (`extraction_code.py`) -/

/-- One numeric-token test of the candidate-line filter: the word with
`,`/`.`/`(`/`)` removed is nonempty and all digits
(`word.replace(...).isdigit()`). -/
def isNumTok (w : List Char) : Bool :=
  let w2 := w.filter (fun c => !(c = ',' || c = '.' || c = '(' || c = ')'))
  !w2.isEmpty && w2.all Char.isDigit

/-- The skip words of the candidate-line filter. -/
def skipWords : List (List Char) :=
  ["note", "contingent", "liabilit", "statement", "financial", "as on",
   "previous year"].map String.toList

/-- The financial-content test of the candidate-line filter in
`extract_contingent_liabilities_tables`: at least one `₹`, or `Rs.`, or
`crore`/`lakh` in the lowercased line, or at least one numeric token. -/
def hasFinancialData (line : List Char) : Bool :=
  1 ≤ line.count '₹' ||
  containsSub line ("Rs.".toList) ||
  containsSub (lowerL line) ("crore".toList) ||
  containsSub (lowerL line) ("lakh".toList) ||
  1 ≤ (pySplitWs line).countP isNumTok

/-- Candidate-line filter of the text-based table extraction, applied to the
already stripped line: length strictly between 10 and 200, financial
content, and no skip word in the lowercased line. -/
def keepStripped (line : List Char) : Bool :=
  ((10 < line.length && line.length < 200) && hasFinancialData line) &&
    !(skipWords.any (fun w => containsSub (lowerL line) w))

/-- The filter as applied to a raw line of the section text (the source
strips the line first). -/
def keepLineExtract (raw : List Char) : Bool :=
  keepStripped (pyStrip raw)

/-- The source's `potential_table_lines`: the stripped lines of the section text that
pass the candidate-line filter. -/
def candidateLines (text : List Char) : List (List Char) :=
  ((splitOnNl text).map pyStrip).filter keepStripped

/-- Split a candidate line into cleaned cells: split on 2-or-more-space
runs, strip each cell, keep the nonempty ones. -/
def lineCells (line : List Char) : List (List Char) :=
  ((splitWide (pyStrip line)).map pyStrip).filter (fun c => c ≠ [])

/-- The source's `table_data`: the cell rows of the candidate lines that have at least
two cells (description + amount). -/
def tableRows (cands : List (List Char)) : List (List (List Char)) :=
  (cands.map lineCells).filter (fun r => 2 ≤ r.length)

/-- Maximum cell count over the retained rows (`max_cols`). -/
def maxCols (rows : List (List (List Char))) : Nat :=
  rows.foldr (fun r m => max r.length m) 0

/-- Pad a row with empty cells up to `n` cells. -/
def padRow (n : Nat) (r : List (List Char)) : List (List Char) :=
  r ++ List.replicate (n - r.length) []

/-- The positional column names: 2 → Description/Amount, 3 → Description/
Current Year/Previous Year, 4 → additionally Notes, otherwise `Column_i`. -/
def positionalNames (n : Nat) : List (List Char) :=
  if n = 2 then ["Description", "Amount"].map String.toList
  else if n = 3 then
    ["Description", "Current Year", "Previous Year"].map String.toList
  else if n = 4 then
    ["Description", "Current Year", "Previous Year", "Notes"].map String.toList
  else (List.range n).map (fun i => "Column_".toList ++ (Nat.repr (i + 1)).toList)

/-- A reconstructed table: column names and rows of cells. -/
structure TextTable where
  colNames : List (List Char)
  rows : List (List (List Char))
deriving DecidableEq

/-- The text-derived table of `extract_contingent_liabilities_tables`: rows
with at least two cells, padded to the maximum column count, with the
positional column names; rows whose cells are all empty are dropped
(`replace('', NA).dropna(how='all')`), and no table is emitted when nothing
remains. -/
def buildTextTable (cands : List (List Char)) : Option TextTable :=
  let td := tableRows cands
  if td.isEmpty then none
  else
    let m := maxCols td
    let padded := td.map (padRow m)
    let kept := padded.filter (fun r => !r.all (fun c => c = []))
    if kept.isEmpty then none else some ⟨positionalNames m, kept⟩

/-- The full text pipeline on a section text: candidate lines, then the
text-derived table. -/
def textTable (sectionTxt : List Char) : Option TextTable :=
  buildTextTable (candidateLines sectionTxt)

/-! ## Word-document export (`save_results_to_word`) -/

/-- The less restrictive line filter of `save_results_to_word`, applied to a
raw line: after stripping, the line must be nonempty, have "financial data"
(a digit, a currency marker, an amount term — or merely length above 10),
and not be one of the known headers. -/
def keepLineWord (raw : List Char) : Bool :=
  let line := pyStrip raw
  let hasFin :=
    line.any Char.isDigit ||
    containsSub line ("₹".toList) ||
    containsSub line ("Rs.".toList) ||
    containsSub (lowerL line) ("rs.".toList) ||
    containsSub (lowerL line) ("crore".toList) ||
    containsSub (lowerL line) ("lakh".toList) ||
    containsSub (lowerL line) ("million".toList) ||
    10 < line.length
  let isHeader :=
    (["contingent liabilities", "notes to", "financial statement"].map
      String.toList).any (fun h => containsSub (lowerL line) h)
  !line.isEmpty && (hasFin && !isHeader)

/-- Row building of the Word export: split a kept line on 2-or-more-space
runs, strip cells, drop empties; if any cell remains, pad to three cells and
take the first three. -/
def wordRowOf (line : List Char) : Option (List (List Char)) :=
  let cells := ((splitWide line).map pyStrip).filter (fun c => c ≠ [])
  if cells.isEmpty then none
  else some ((cells ++ List.replicate (3 - cells.length) []).take 3)

/-- The fixed Word-table headers. -/
def wordHeaders : List (List Char) :=
  ["Description", "Amount 1", "Amount 2"].map String.toList

/-- The Word table built from the kept lines: its rows, under the fixed
three headers; no table when no line yields a row. -/
def wordTable (tlines : List (List Char)) : Option TextTable :=
  let rows := tlines.filterMap wordRowOf
  if rows.isEmpty then none else some ⟨wordHeaders, rows⟩

/-! ## Page/column locator (`extraction_code.py`, step 1) -/

/-- Which column supplied the relevant text. -/
inductive ColumnChoice where
  | left
  | right
  | both
deriving DecidableEq

/-- The target headings of the locator. -/
def targetMainHeadingConsolidated : List Char :=
  "notes to consolidated financial statement".toList

/-- The standalone variant of the main heading. -/
def targetMainHeadingStandalone : List Char :=
  "notes to standalone financial statement".toList

/-- The subsection token (already lowercase in the source). -/
def targetSubHeading : List Char := "contingent liabilit".toList

/-- The column-selection logic: prefer the column whose lowercased text
contains both the main heading and the subsection token (left first), then
fall back to the subsection token alone, then to the concatenation of both
columns.  `none` models the `UnboundLocalError` the source raises when the
right column is empty and the fallback reads the never-assigned
`right_lower` (caught by the enclosing per-page handler). -/
def selectColumn (mh sh l r : List Char) : Option (List Char × ColumnChoice) :=
  let ll := lowerL l
  if containsSub ll (lowerL mh) && containsSub ll sh then some (l, .left)
  else if !r.isEmpty && (containsSub (lowerL r) (lowerL mh) &&
      containsSub (lowerL r) sh) then some (r, .right)
  else if containsSub ll sh then some (l, .left)
  else if r.isEmpty then none
  else if containsSub (lowerL r) sh then some (r, .right)
  else some (l ++ '\n' :: '\n' :: r, .both)

/-! ## Spreadsheet sheet names (`extyraction_code.py`, `save_simple_results`) -/

/-- Python `str.title()` (ASCII): uppercase a letter that follows a
non-letter, lowercase a letter that follows a letter. -/
def pyTitleGo (prevAlpha : Bool) : List Char → List Char
  | [] => []
  | c :: rest =>
    (if c.isAlpha then (if prevAlpha then c.toLower else c.toUpper) else c) ::
      pyTitleGo c.isAlpha rest

/-- Python `str.title()` from the start of the string. -/
def pyTitle (l : List Char) : List Char := pyTitleGo false l

/-- The sheet name derived from the section identifier:
`f"{section_name.split('_')[0].title()}_Table_{i+1}"`. -/
def derivedSheetName (sectionName : List Char) (i : Nat) : List Char :=
  pyTitle (sectionName.takeWhile (fun c => c ≠ '_')) ++
    "_Table_".toList ++ (Nat.repr (i + 1)).toList

/-- The emitted sheet name: the derived name, unless it exceeds Excel's
31-character limit, in which case the generic `Table_<counter>` name. -/
def sheetNameFinal (sectionName : List Char) (i counter : Nat) : List Char :=
  let base := derivedSheetName sectionName i
  if 31 < base.length then "Table_".toList ++ (Nat.repr counter).toList
  else base

/-! ## JSON values and tolerant response parsing
(`updated_ready.py` / `ready_pipeline.py`)

`json.loads` is an external collaborator: the parsing helpers take it as a
parameter `jl : List Char → Option JVal` (`none` models
`json.JSONDecodeError`). -/

/-- A parsed JSON value (numbers as rationals; Python `bool` is a subclass
of `int`, which `confidenceRead` accounts for). -/
inductive JVal where
  | jnull
  | jbool (b : Bool)
  | jnum (q : ℚ)
  | jstr (s : String)
  | jarr (xs : List JVal)
  | jobj (fields : List (String × JVal))

/-- Python-dict lookup on a parsed object: of duplicate keys the last one
wins (as in `json.loads`). -/
def lookupLast (fields : List (String × JVal)) (k : String) : Option JVal :=
  fields.foldl (fun acc f => if f.1 = k then some f.2 else acc) none

/-- Python `re.search(r'\x7b.*\x7d', text, re.DOTALL)` (the brace-span regex): with the greedy `.*`, the span
from the first `{` to the last `}` after it, if any. -/
def braceSpan (cs : List Char) : Option (List Char) :=
  match cs.findIdx? (fun c => c = '\x7b') with
  | none => none
  | some i =>
    match (cs.reverse.findIdx? (fun c => c = '\x7d')).map
        (fun k => cs.length - 1 - k) with
    | none => none
    | some j => if i < j then some ((cs.drop i).take (j + 1 - i)) else none

/-- Python `re.search(r'\[.*\]', text, re.DOTALL)`: first `[` to last `]` after
it. -/
def bracketSpan (cs : List Char) : Option (List Char) :=
  match cs.findIdx? (fun c => c = '[') with
  | none => none
  | some i =>
    match (cs.reverse.findIdx? (fun c => c = ']')).map
        (fun k => cs.length - 1 - k) with
    | none => none
    | some j => if i < j then some ((cs.drop i).take (j + 1 - i)) else none

/-- The default classification object
`{"relevance": "Non Relevant", "confidence": 0.0}`. -/
def defaultClassification : JVal :=
  .jobj [("relevance", .jstr "Non Relevant"), ("confidence", .jnum 0)]

/-- The helper `parse_llama_json_response` of `updated_ready.py`: direct parse, then
parse of the regex-extracted `{...}` span, then the default classification
object.  Total: no branch raises. -/
def parse_llama_json_response (jl : List Char → Option JVal)
    (resp : List Char) : JVal :=
  match jl resp with
  | some v => v
  | none =>
    match braceSpan resp with
    | some sp =>
      match jl sp with
      | some v => v
      | none => defaultClassification
    | none => defaultClassification

/-- The helper `extract_table_from_docling_markdown` of `updated_ready.py` (response
handling): direct parse, then parse of the regex-extracted `[...]` span,
then the empty list. -/
def extractTableParseU (jl : List Char → Option JVal)
    (resp : List Char) : JVal :=
  match jl resp with
  | some v => v
  | none =>
    match bracketSpan resp with
    | some sp =>
      match jl sp with
      | some v => v
      | none => .jarr []
    | none => .jarr []

/-- The helper `extract_table_from_docling_markdown` of `ready_pipeline.py` (response
handling): direct parse; on `JSONDecodeError` the handler evaluates
`resp.output_text`, an attribute a chat-completions response does not have,
so it raises `AttributeError` instead of returning `[]`.  The error branch
models that exception. -/
def extractTableParseR (jl : List Char → Option JVal)
    (content : List Char) : Except String JVal :=
  match jl content with
  | some v => .ok v
  | none => .error "AttributeError: output_text"

/-! ## Page-keeping decisions (`extract_cg`) -/

/-- Read `stage_result.get("relevance")` as a string, `none` when the value is
not a dict, lacks the key, or holds a non-string. -/
def relevanceOf (v : JVal) : Option String :=
  match v with
  | .jobj fs =>
    match lookupLast fs "relevance" with
    | some (.jstr s) => some s
    | _ => none
  | _ => none

/-- Read `stage1_result.get("confidence", 0)` as a rational: a missing key gives
0, a number (or bool, Python's int subclass) its value; `none` models the
`TypeError` of comparing any other value with `0.85`. -/
def confidenceRead (v : JVal) : Option ℚ :=
  match v with
  | .jobj fs =>
    match lookupLast fs "confidence" with
    | none => some 0
    | some (.jnum q) => some q
    | some (.jbool b) => some (if b then 1 else 0)
    | some _ => none
  | _ => some 0

/-- The page-keeping decision of `updated_ready.py`'s `extract_cg`, on the
two parsed stage results: stage 1 must be a dict with relevance
`"Relevant"` and confidence at least 0.85, then stage 2 must be a dict with
relevance `"Relevant"`.  `none` models an uncaught `TypeError`. -/
def keepPageU (s1 s2 : JVal) : Option Bool :=
  if relevanceOf s1 = some "Relevant" then
    match confidenceRead s1 with
    | none => none
    | some c =>
      if (0.85 : ℚ) ≤ c then some (relevanceOf s2 = some "Relevant")
      else some false
  else some false

/-- The claim's reading of the gate, written from the spec's words: kept
exactly when stage 1 returns relevance Relevant with confidence at least
0.85 and stage 2 also returns relevance Relevant. -/
def specKeepPage (s1 s2 : JVal) : Prop :=
  relevanceOf s1 = some "Relevant" ∧
    (∃ c : ℚ, confidenceRead s1 = some c ∧ (0.85 : ℚ) ≤ c) ∧
    relevanceOf s2 = some "Relevant"

/-- The `float()`-compatible reading of a `[0-9.]+` token: at most one dot,
at least one digit, all other characters digits (`none` models the
`ValueError` of `float()` on tokens such as `1.2.3` or `.`). -/
def floatOfToken (cs : List Char) : Option ℚ :=
  if cs.all (fun c => c.isDigit || c = '.') && cs.any Char.isDigit &&
      cs.count '.' ≤ 1 then
    some
      (((cs.takeWhile Char.isDigit).foldl
          (fun n c => 10 * n + (c.toNat - 48)) 0 : ℕ) +
        (((((cs.dropWhile Char.isDigit).drop 1).foldl
            (fun n c => 10 * n + (c.toNat - 48)) 0 : ℕ)) : ℚ) /
          10 ^ ((cs.dropWhile Char.isDigit).drop 1).length)
  else none

/-- Matcher for `"confidence":\s*([0-9.]+)`: the literal key, optional
whitespace, then the greedy captured token. -/
def matchConf (cs : List Char) : Option (List Char) :=
  match matchLit ("\x22confidence\x22:".toList) cs with
  | none => none
  | some r =>
    let tok := (r.dropWhile isSpace).takeWhile (fun c => c.isDigit || c = '.')
    if tok.isEmpty then none else some tok

/-- Run `re.search` returning the captured token of the leftmost match. -/
def searchTok (m : List Char → Option (List Char)) : List Char → Option (List Char)
  | [] => m []
  | c :: t =>
    match m (c :: t) with
    | some tok => some tok
    | none => searchTok m t

/-- The page-keeping decision of `ready_pipeline.py`'s `extract_cg`, on the
two raw response strings: substring checks for `Relevant` and `confidence`,
a regex-extracted confidence compared with 0.85, then a substring check for
`"relevance": "Relevant"` on the stage-2 response.  `none` models `float()`
raising on a malformed captured token. -/
def keepPageR (s1 s2 : List Char) : Option Bool :=
  if containsSub s1 ("Relevant".toList) && containsSub s1 ("confidence".toList) then
    match searchTok matchConf s1 with
    | none => some false
    | some tok =>
      match floatOfToken tok with
      | none => none
      | some c =>
        if (0.85 : ℚ) ≤ c then
          some (containsSub s2 ("\x22relevance\x22: \x22Relevant\x22".toList))
        else some false
  else some false

/-! ## `HostedLLM._call` (`updated_ready.py` / `ready_pipeline.py`)

The network request (`requests.request` + `response.text`) and
`ast.literal_eval` are external collaborators, passed as parameters; per the
gateway contract the literal-evaluated response is a mapping, modelled as a
string-to-string association list.  `Except` errors model raised
exceptions, carrying `str(e)`. -/

/-- The Llama prompt template the call wraps the prompt in. -/
def llamaPromptTemplate (prompt : List Char) : List Char :=
  "\n<|begin_of_text|><|start_header_id|>user<|end_header_id|>\n".toList ++
    prompt ++
    "<|eot_id|><|start_header_id|>assistant<|end_header_id|>\n".toList

/-- Fuel-driven worker for `removeAll`: at each position, a match of `pat`
is skipped, otherwise one character is kept; one unit of fuel per step
suffices for nonempty patterns. -/
def removeAllGo : Nat → List Char → List Char → List Char
  | 0, _, s => s
  | _ + 1, _, [] => []
  | fuel + 1, pat, c :: t =>
    match matchLit pat (c :: t) with
    | some rest => removeAllGo fuel pat rest
    | none => c :: removeAllGo fuel pat t

/-- Python `s.replace(pat, '')`: remove every left-to-right non-overlapping
occurrence of `pat`. -/
def removeAll (pat : List Char) (s : List Char) : List Char :=
  removeAllGo (s.length + 1) pat s

/-- Dict lookup in the literal-evaluated gateway response (last key wins,
as for a Python dict literal). -/
def lookupOutput (d : List (List Char × List Char)) (k : List Char) :
    Option (List Char) :=
  d.foldl (fun acc f => if f.1 = k then some f.2 else acc) none

/-- The method `HostedLLM._call`: build the prompt template and payload, send the
request, literal-eval the response text, read its `output` field, strip the
echoed template, and trim; every exception in the try block is caught and
returned as the string `"LLM Call Failed: <error>"`. -/
def hostedCall (net : List Char → Except (List Char) (List Char))
    (lev : List Char → Except (List Char) (List (List Char × List Char)))
    (prompt : List Char) : List Char :=
  let tmpl := llamaPromptTemplate prompt
  match net tmpl with
  | .error e => "LLM Call Failed: ".toList ++ e
  | .ok respText =>
    match lev respText with
    | .error e => "LLM Call Failed: ".toList ++ e
    | .ok d =>
      match lookupOutput d ("output".toList) with
      | none => "LLM Call Failed: ".toList ++ "\x27output\x27".toList
      | some out => pyStrip (removeAll tmpl out)

/-! ## Concrete inputs used by the claim theorems -/

/-- The page text of the spec's end-to-end scenario, verbatim (single
spaces between descriptions and amounts). -/
def scenarioText : List Char :=
  "b) Contingent Liabilities\nClaims against company ₹ 10,00,000\nGrand Total ₹ 10,00,000".toList

/-- The scenario text with the amounts separated from the descriptions by
two spaces (the delimiter the reconstructor splits on). -/
def scenarioTextWide : List Char :=
  "b) Contingent Liabilities\nClaims against company  ₹ 10,00,000\nGrand Total  ₹ 10,00,000".toList

/-- A section identifier whose first `_`-segment alone already exceeds the
sheet-name limit once `_Table_1` is appended. -/
def longSectionName : List Char :=
  "consolidatedfinancialstatements_page".toList

/-- A stage-1 response naming relevance `Non Relevant` with high
confidence. -/
def stage1NonRelevantResp : List Char :=
  "\x7b\x22relevance\x22: \x22Non Relevant\x22, \x22confidence\x22: 0.99\x7d".toList

/-- A stage-2 response naming relevance `Relevant`. -/
def stage2RelevantResp : List Char :=
  "\x7b\x22relevance\x22: \x22Relevant\x22\x7d".toList

/-- A parsed stage-1 result that passes the `updated_ready.py` gate. -/
def stage1RelevantJson : JVal :=
  .jobj [("relevance", .jstr "Relevant"), ("confidence", .jnum 0.9)]

/-- A parsed stage-2 result that passes the `updated_ready.py` gate. -/
def stage2RelevantJson : JVal :=
  .jobj [("relevance", .jstr "Relevant")]

/-! ## Helper lemmas on the string primitives -/

/-- The relation `listPre` is transitive-composable: a prefix of a prefix is a prefix. -/
theorem listPre_trans :
    ∀ n x y : List Char, listPre n x = true → listPre x y = true →
      listPre n y = true := by
  intro n
  induction n with
  | nil => intro x y _ _; rfl
  | cons a as ih =>
    intro x y h1 h2
    cases x with
    | nil => simp [listPre] at h1
    | cons b bs =>
      cases y with
      | nil => simp [listPre] at h2
      | cons c cs =>
        simp [listPre] at h1 h2 ⊢
        exact ⟨h1.1.trans h2.1, ih bs cs h1.2 h2.2⟩

/-- The empty needle is a substring of anything. -/
theorem containsSub_nil (y : List Char) : containsSub y [] = true := by
  induction y with
  | nil => rfl
  | cons c t ih => simp [containsSub, listPre, ih]

/-- A substring of a list is a substring of any cons-extension. -/
theorem containsSub_cons (c : Char) (t n : List Char)
    (h : containsSub t n = true) : containsSub (c :: t) n = true := by
  simp [containsSub, h]

/-- A substring of a prefix is a substring of the whole. -/
theorem containsSub_of_listPre :
    ∀ x y n : List Char, listPre x y = true → containsSub x n = true →
      containsSub y n = true := by
  intro x
  induction x with
  | nil =>
    intro y n _ hc
    cases n with
    | nil => exact containsSub_nil y
    | cons a as => simp [containsSub, listPre] at hc
  | cons b bs ih =>
    intro y n hp hc
    cases y with
    | nil => simp [listPre] at hp
    | cons c cs =>
      simp [listPre] at hp
      simp [containsSub] at hc
      rcases hc with hc | hc
      · have : listPre n (c :: cs) = true := by
          have hbc : listPre (b :: bs) (c :: cs) = true := by
            simp [listPre, hp.1, hp.2]
          exact listPre_trans n (b :: bs) (c :: cs) hc hbc
        simp [containsSub, this]
      · exact containsSub_cons c cs n (ih cs n hp.2 hc)

/-- A substring of `l.dropWhile p` is a substring of `l`. -/
theorem containsSub_of_dropWhile (p : Char → Bool) :
    ∀ l n : List Char, containsSub (l.dropWhile p) n = true →
      containsSub l n = true := by
  intro l
  induction l with
  | nil => intro n h; simpa using h
  | cons c t ih =>
    intro n h
    by_cases hc : p c
    · rw [List.dropWhile_cons_of_pos hc] at h
      exact containsSub_cons c t n (ih n h)
    · rwa [List.dropWhile_cons_of_neg hc] at h

/-- The list `dropEndSpaces l` is a prefix of `l`. -/
theorem listPre_dropEndSpaces : ∀ l : List Char,
    listPre (dropEndSpaces l) l = true := by
  intro l
  induction l with
  | nil => rfl
  | cons c t ih =>
    simp only [dropEndSpaces]
    split
    · rfl
    · simp [listPre, ih]

/-- A substring of the stripped line is a substring of the line. -/
theorem containsSub_of_pyStrip (l n : List Char)
    (h : containsSub (pyStrip l) n = true) : containsSub l n = true := by
  unfold pyStrip at h
  exact containsSub_of_dropWhile isSpace l n
    (containsSub_of_listPre _ _ n (listPre_dropEndSpaces _) h)

/-- The relation `listPre` is preserved by `map`. -/
theorem listPre_map (f : Char → Char) :
    ∀ x y : List Char, listPre x y = true →
      listPre (x.map f) (y.map f) = true := by
  intro x
  induction x with
  | nil => intro y _; rfl
  | cons a as ih =>
    intro y h
    cases y with
    | nil => simp [listPre] at h
    | cons b bs =>
      simp [listPre] at h
      simp [listPre, h.1, ih bs h.2]

/-- A substring of `lowerL (l.dropWhile p)` is a substring of `lowerL l`. -/
theorem containsSub_lower_dropWhile (p : Char → Bool) :
    ∀ l n : List Char, containsSub (lowerL (l.dropWhile p)) n = true →
      containsSub (lowerL l) n = true := by
  intro l
  induction l with
  | nil => intro n h; simpa using h
  | cons c t ih =>
    intro n h
    by_cases hc : p c
    · rw [List.dropWhile_cons_of_pos hc] at h
      exact containsSub_cons _ _ n (ih n h)
    · rwa [List.dropWhile_cons_of_neg hc] at h

/-- A substring of the lowercased stripped line is a substring of the
lowercased line. -/
theorem containsSub_lower_pyStrip (l n : List Char)
    (h : containsSub (lowerL (pyStrip l)) n = true) :
    containsSub (lowerL l) n = true := by
  unfold pyStrip at h
  refine containsSub_lower_dropWhile isSpace l n ?_
  refine containsSub_of_listPre _ _ n ?_ h
  exact listPre_map Char.toLower _ _ (listPre_dropEndSpaces _)

/-- Membership in `dropEndSpaces l` implies membership in `l`. -/
theorem mem_dropEndSpaces (a : Char) :
    ∀ l : List Char, a ∈ dropEndSpaces l → a ∈ l := by
  intro l
  induction l with
  | nil => intro h; simp [dropEndSpaces] at h
  | cons c t ih =>
    simp only [dropEndSpaces]
    split
    · intro h; simp at h
    · intro h
      rcases List.mem_cons.mp h with h | h
      · simp [h]
      · exact List.mem_cons_of_mem c (ih h)

/-- Membership in the stripped line implies membership in the line. -/
theorem mem_pyStrip (a : Char) (l : List Char) (h : a ∈ pyStrip l) : a ∈ l :=
  (List.dropWhile_sublist _).mem (mem_dropEndSpaces a _ h)

/-- Characters of the words of `pySplitWsGo cur cs` come from `cur` or
`cs`. -/
theorem mem_pySplitWsGo (a : Char) :
    ∀ cs cur w, w ∈ pySplitWsGo cur cs → a ∈ w → a ∈ cur ∨ a ∈ cs := by
  intro cs
  induction cs with
  | nil =>
    intro cur w hw ha
    simp only [pySplitWsGo] at hw
    split at hw
    · simp at hw
    · simp at hw
      subst hw
      exact Or.inl (List.mem_reverse.mp ha)
  | cons c t ih =>
    intro cur w hw ha
    simp only [pySplitWsGo] at hw
    split at hw
    · split at hw
      · rcases ih [] w hw ha with h | h
        · simp at h
        · exact Or.inr (List.mem_cons_of_mem c h)
      · rcases List.mem_cons.mp hw with hw | hw
        · subst hw
          exact Or.inl (List.mem_reverse.mp ha)
        · rcases ih [] w hw ha with h | h
          · simp at h
          · exact Or.inr (List.mem_cons_of_mem c h)
    · rcases ih (c :: cur) w hw ha with h | h
      · rcases List.mem_cons.mp h with h | h
        · exact Or.inr (by simp [h])
        · exact Or.inl h
      · exact Or.inr (List.mem_cons_of_mem c h)

/-! ## Soundness of the search combinators -/

/-- The matcher `matchLit` only consumes characters: the rest is no longer than the
input. -/
theorem matchLit_length :
    ∀ pat cs r : List Char, matchLit pat cs = some r → r.length ≤ cs.length := by
  intro pat
  induction pat with
  | nil => intro cs r h; simp [matchLit] at h; simp [h]
  | cons p ps ih =>
    intro cs r h
    cases cs with
    | nil => simp [matchLit] at h
    | cons c t =>
      simp only [matchLit] at h
      split at h
      · have := ih t r h
        simp
        omega
      · exact absurd h (by simp)

/-- The matcher `matchCL` only consumes characters. -/
theorem matchCL_length (cs r : List Char) (h : matchCL cs = some r) :
    r.length ≤ cs.length := by
  unfold matchCL at h
  split at h
  · exact absurd h (by simp)
  · rename_i r1 h1
    split at h
    · exact absurd h (by simp)
    · rename_i c r2
      split at h
      · split at h
        · rename_i r3 h3
          simp at h
          subst h
          have hd1 := (List.dropWhile_sublist (l := r2) (p := isSpace)).length_le
          have h3l := matchLit_length _ _ _ h3
          have hd2 := (List.dropWhile_sublist (l := r3) (p := isIEYSN)).length_le
          have h1l := matchLit_length _ _ _ h1
          simp at h1l
          omega
        · exact absurd h (by simp)
      · exact absurd h (by simp)

/-- The matcher `matchP1` only consumes characters. -/
theorem matchP1_length (cs r : List Char) (h : matchP1 cs = some r) :
    r.length ≤ cs.length := by
  unfold matchP1 at h
  split at h
  · rename_i r1 h1
    have h1l := matchLit_length _ _ _ h1
    have hd := (List.dropWhile_sublist (l := r1) (p := isSpace)).length_le
    have := matchCL_length _ _ h
    simp at h1l
    omega
  · exact absurd h (by simp)

/-- The matcher `matchP2` only consumes characters. -/
theorem matchP2_length (cs r : List Char) (h : matchP2 cs = some r) :
    r.length ≤ cs.length := by
  unfold matchP2 at h
  split at h
  · rename_i r1 h1
    have h1l := matchLit_length _ _ _ h1
    have hd := (List.dropWhile_sublist (l := r1) (p := isSpace)).length_le
    have := matchCL_length _ _ h
    simp at h1l
    omega
  · exact absurd h (by simp)

/-- A `searchM` result is a well-formed span of the searched text, provided
the matcher only consumes characters. -/
theorem searchM_bounds (m : List Char → Option (List Char))
    (hm : ∀ cs r, m cs = some r → r.length ≤ cs.length) :
    ∀ cs s e, searchM m cs = some (s, e) → s ≤ e ∧ e ≤ cs.length := by
  intro cs
  induction cs with
  | nil =>
    intro s e h
    simp only [searchM] at h
    split at h
    · simp at h
      obtain ⟨rfl, rfl⟩ := h
      simp
    · exact absurd h (by simp)
  | cons c t ih =>
    intro s e h
    simp only [searchM] at h
    split at h
    · rename_i rest hr
      simp at h
      have := hm _ _ hr
      simp at this ⊢
      omega
    · cases hs : searchM m t with
      | none => rw [hs] at h; exact absurd h (by simp)
      | some p =>
        rw [hs] at h
        simp at h
        have := ih p.1 p.2 (by rw [hs])
        simp at this ⊢
        omega

/-- A successful `startSearch` yields a well-formed span. -/
theorem startSearch_bounds (lower : List Char) (s e : Nat)
    (h : startSearch lower = some (s, e)) : s ≤ e ∧ e ≤ lower.length := by
  unfold startSearch at h
  split at h
  · rename_i r h1
    exact searchM_bounds matchP1 matchP1_length lower s e (h1.trans h)
  · split at h
    · rename_i r h2
      exact searchM_bounds matchP2 matchP2_length lower s e (h2.trans h)
    · exact searchM_bounds matchCL matchCL_length lower s e h

/-- A `searchCtx` result is an offset into the searched slice. -/
theorem searchCtx_bound (m : Option Char → List Char → Bool) :
    ∀ cs prev j, searchCtx m prev cs = some j → j ≤ cs.length := by
  intro cs
  induction cs with
  | nil =>
    intro prev j h
    simp only [searchCtx] at h
    split at h
    · simp at h; omega
    · exact absurd h (by simp)
  | cons c t ih =>
    intro prev j h
    simp only [searchCtx] at h
    split at h
    · simp at h; omega
    · cases hs : searchCtx m (some c) t with
      | none => rw [hs] at h; exact absurd h (by simp)
      | some j0 =>
        rw [hs] at h
        simp at h
        have := ih (some c) j0 hs
        simp
        omega

/-- A `firstEndMatch` result is an offset into the searched slice. -/
theorem firstEndMatch_bound (suffix : List Char) (j : Nat)
    (h : firstEndMatch suffix = some j) : j ≤ suffix.length := by
  unfold firstEndMatch at h
  repeat' split at h
  all_goals
    first
    | (simp at h; subst h; apply searchCtx_bound <;> assumption)
    | (exact searchCtx_bound _ _ _ _ h)

/-! ## Claim theorems -/

/-- C7: whenever a section start is found, the computed end offset lies
between the start offset and the length of the text, including when the
50-character search start lies past the end of the text. -/
theorem section_bounds_well_formed (text : List Char) (s e : Nat)
    (h : sectionBounds text = some (s, e)) : s ≤ e ∧ e ≤ text.length := by
  unfold sectionBounds at h
  cases hs : startSearch (lowerL text) with
  | none => rw [hs] at h; exact absurd h (by simp)
  | some p =>
    obtain ⟨s0, e0⟩ := p
    rw [hs] at h
    simp at h
    obtain ⟨rfl, rfl⟩ := h
    have hb := startSearch_bounds (lowerL text) s0 e0 hs
    have hlen : (lowerL text).length = text.length := by simp [lowerL]
    cases hf : firstEndMatch ((lowerL text).drop (e0 + 50)) with
    | none =>
      have hval : sectionEndPos (lowerL text) (e0 + 50) = (lowerL text).length := by
        unfold sectionEndPos; rw [hf]
      rw [hval]
      omega
    | some j =>
      have hj := firstEndMatch_bound _ j hf
      rw [List.length_drop] at hj
      have hval : sectionEndPos (lowerL text) (e0 + 50) = e0 + 50 + j := by
        unfold sectionEndPos; rw [hf]
      rw [hval]
      by_cases hcut : e0 + 50 ≤ (lowerL text).length
      · omega
      · exfalso
        have hnil : (lowerL text).drop (e0 + 50) = [] :=
          List.drop_eq_nil_of_le (by omega)
        rw [hnil] at hf
        have hnone : firstEndMatch ([] : List Char) = none := by decide
        rw [hnone] at hf
        exact absurd hf (by simp)

/-- C7 witness: the bounds computed on the spec's scenario text are
well-formed. -/
theorem section_bounds_well_formed_witness :
    (0 : Nat) ≤ 84 ∧ 84 ≤ scenarioText.length :=
  section_bounds_well_formed scenarioText 0 84 (by decide)

/-- C6: the end-boundary search starts exactly 50 characters after the end
of the start-heading match; the end offset is the start of the first match
of the first end pattern (in the source's order) that matches in the
searched slice, and the end of the text when none matches. -/
theorem section_end_boundary :
    (∀ text s e, startSearch (lowerL text) = some (s, e) →
        sectionBounds text = some (s, sectionEndPos (lowerL text) (e + 50))) ∧
    (∀ lower ss, firstEndMatch (lower.drop ss) = none →
        sectionEndPos lower ss = lower.length) ∧
    (∀ lower ss j, firstEndMatch (lower.drop ss) = some j →
        sectionEndPos lower ss = ss + j) ∧
    (∀ suffix j, searchCtx matchEndC none suffix = some j →
        firstEndMatch suffix = some j) ∧
    (∀ suffix j, searchCtx matchEndC none suffix = none →
        searchCtx matchEndParenC none suffix = some j →
        firstEndMatch suffix = some j) ∧
    (∀ suffix j, searchCtx matchEndC none suffix = none →
        searchCtx matchEndParenC none suffix = none →
        searchCtx matchEndD none suffix = some j →
        firstEndMatch suffix = some j) ∧
    (∀ suffix j, searchCtx matchEndC none suffix = none →
        searchCtx matchEndParenC none suffix = none →
        searchCtx matchEndD none suffix = none →
        searchCtx matchEndParenD none suffix = some j →
        firstEndMatch suffix = some j) ∧
    (∀ suffix j, searchCtx matchEndC none suffix = none →
        searchCtx matchEndParenC none suffix = none →
        searchCtx matchEndD none suffix = none →
        searchCtx matchEndParenD none suffix = none →
        searchCtx matchEndNum none suffix = some j →
        firstEndMatch suffix = some j) ∧
    (∀ suffix j, searchCtx matchEndC none suffix = none →
        searchCtx matchEndParenC none suffix = none →
        searchCtx matchEndD none suffix = none →
        searchCtx matchEndParenD none suffix = none →
        searchCtx matchEndNum none suffix = none →
        searchCtx matchEndCaps none suffix = some j →
        firstEndMatch suffix = some j) := by
  refine ⟨?_, ?_, ?_, ?_, ?_, ?_, ?_, ?_, ?_⟩
  · intro text s e h
    unfold sectionBounds
    rw [h]
  · intro lower ss h
    unfold sectionEndPos
    rw [h]
  · intro lower ss j h
    unfold sectionEndPos
    rw [h]
  · intro suffix j h
    unfold firstEndMatch
    rw [h]
  · intro suffix j h1 h
    unfold firstEndMatch
    rw [h1, h]
  · intro suffix j h1 h2 h
    unfold firstEndMatch
    rw [h1, h2, h]
  · intro suffix j h1 h2 h3 h
    unfold firstEndMatch
    rw [h1, h2, h3, h]
  · intro suffix j h1 h2 h3 h4 h
    unfold firstEndMatch
    rw [h1, h2, h3, h4, h]
  · intro suffix j h1 h2 h3 h4 h5 h
    unfold firstEndMatch
    rw [h1, h2, h3, h4, h5, h]

/-- C6 witness: on the scenario text the start match ends at offset 25, the
end search starts at offset 75, no end pattern matches there, and the end
is the text length 84. -/
theorem section_end_boundary_witness :
    sectionBounds scenarioText =
      some (0, sectionEndPos (lowerL scenarioText) (25 + 50)) ∧
    sectionEndPos (lowerL scenarioText) 75 = (lowerL scenarioText).length :=
  ⟨section_end_boundary.1 scenarioText 0 25 (by decide),
   section_end_boundary.2.1 (lowerL scenarioText) 75 (by decide)⟩

/-- Every retained row is no wider than `maxCols`. -/
theorem le_maxCols :
    ∀ rows : List (List (List Char)), ∀ r ∈ rows, r.length ≤ maxCols rows := by
  intro rows
  induction rows with
  | nil => intro r h; simp at h
  | cons x xs ih =>
    intro r h
    rcases List.mem_cons.mp h with h | h
    · subst h
      simp [maxCols]
    · calc r.length ≤ maxCols xs := ih r h
        _ ≤ maxCols (x :: xs) := by simp [maxCols]

/-- The positional naming scheme always provides exactly `n` names. -/
theorem positionalNames_length (n : Nat) : (positionalNames n).length = n := by
  unfold positionalNames
  split
  · rename_i h; subst h; rfl
  · split
    · rename_i h; subst h; rfl
    · split
      · rename_i h; subst h; rfl
      · simp

/-- C8 (amended): in `extract_contingent_liabilities_tables`, every row of
the emitted text-derived table is padded to exactly the maximum cell count
over the retained rows, and the column names follow the positional scheme
for that count; in `save_results_to_word`, every emitted row has exactly
three cells, under the fixed headers Description / Amount 1 / Amount 2. -/
theorem table_padding_and_names :
    (∀ cands t, buildTextTable cands = some t →
        t.colNames = positionalNames (maxCols (tableRows cands)) ∧
        t.colNames.length = maxCols (tableRows cands) ∧
        ∀ r ∈ t.rows, r.length = maxCols (tableRows cands)) ∧
    (∀ tlines t, wordTable tlines = some t →
        t.colNames = wordHeaders ∧ ∀ r ∈ t.rows, r.length = 3) := by
  constructor
  · intro cands t h
    simp only [buildTextTable] at h
    split at h
    · exact absurd h (by simp)
    · split at h
      · exact absurd h (by simp)
      · simp only [Option.some.injEq] at h
        subst h
        refine ⟨rfl, positionalNames_length _, ?_⟩
        intro r hr
        have hr2 := (List.mem_filter.mp hr).1
        rcases List.mem_map.mp hr2 with ⟨r0, hr0, rfl⟩
        have hle := le_maxCols (tableRows cands) r0 hr0
        simp [padRow]
        omega
  · intro tlines t h
    simp only [wordTable] at h
    split at h
    · exact absurd h (by simp)
    · simp only [Option.some.injEq] at h
      subst h
      refine ⟨rfl, ?_⟩
      intro r hr
      rcases List.mem_filterMap.mp hr with ⟨line, _, hline⟩
      simp only [wordRowOf] at hline
      split at hline
      · exact absurd hline (by simp)
      · rename_i hcells
        simp only [Option.some.injEq] at hline
        subst hline
        rw [List.length_take, List.length_append, List.length_replicate]
        omega

set_option maxRecDepth 200000 in
/-- C8 witness: a concrete pair of candidate lines with two and three cells
yields a three-column table following the positional scheme, every row
padded to three cells. -/
theorem table_padding_and_names_witness :
    buildTextTable
        ["Claims against company  ₹ 10,00,000".toList,
         "Guarantees given  12  34".toList] =
      some ⟨positionalNames 3,
        [["Claims against company".toList, "₹ 10,00,000".toList, []],
         ["Guarantees given".toList, "12".toList, "34".toList]]⟩ ∧
    positionalNames
        (maxCols (tableRows
          ["Claims against company  ₹ 10,00,000".toList,
           "Guarantees given  12  34".toList])) =
      positionalNames 3 :=
  ⟨by decide,
   (table_padding_and_names.1
      ["Claims against company  ₹ 10,00,000".toList,
       "Guarantees given  12  34".toList]
      ⟨positionalNames 3,
        [["Claims against company".toList, "₹ 10,00,000".toList, []],
         ["Guarantees given".toList, "12".toList, "34".toList]]⟩
      (by decide)).1.symm⟩

set_option maxRecDepth 200000 in
/-- C8 counterexample: a Word-exported text-derived table does not follow
the claim: for a single kept line with two cells the emitted table's rows
have three cells, not the maximum retained cell count two, and its headers
are Description / Amount 1 / Amount 2, which match neither the positional
scheme for three columns nor the one for two. -/
theorem word_table_names_counterexample :
    wordTable ["Claims against company  ₹ 10,00,000".toList] =
      some ⟨wordHeaders,
        [["Claims against company".toList, "₹ 10,00,000".toList, []]]⟩ ∧
    (lineCells "Claims against company  ₹ 10,00,000".toList).length = 2 ∧
    wordHeaders ≠ positionalNames 3 ∧
    wordHeaders ≠ positionalNames 2 := by
  refine ⟨by decide, by decide, by decide, by decide⟩

/-- C5 (amended): in `extract_contingent_liabilities_tables`, a line with
no digit, no `₹`, no `Rs.`, and no `crore`/`lakh` keyword is never retained
as a candidate table row.  (The Word-export filter does not share this
property: it also keeps any non-header line longer than 10 characters.) -/
theorem no_financial_marks_line_not_kept (raw : List Char)
    (h1 : raw.all (fun c => !c.isDigit) = true)
    (h2 : raw.all (fun c => !(c = '₹')) = true)
    (h3 : containsSub raw ("Rs.".toList) = false)
    (h4 : containsSub (lowerL raw) ("crore".toList) = false)
    (h5 : containsSub (lowerL raw) ("lakh".toList) = false) :
    keepLineExtract raw = false := by
  have hfin : hasFinancialData (pyStrip raw) = false := by
    unfold hasFinancialData
    simp only [Bool.or_eq_false_iff]
    refine ⟨⟨⟨⟨?_, ?_⟩, ?_⟩, ?_⟩, ?_⟩
    · simp only [decide_eq_false_iff_not]
      intro hc
      have hmem : '₹' ∈ pyStrip raw := List.count_pos_iff.mp (by omega)
      have := List.all_eq_true.mp h2 '₹' (mem_pyStrip '₹' raw hmem)
      simp at this
    · cases hq : containsSub (pyStrip raw) ("Rs.".toList) with
      | false => rfl
      | true => exact absurd (containsSub_of_pyStrip raw _ hq) (by rw [h3]; simp)
    · cases hq : containsSub (lowerL (pyStrip raw)) ("crore".toList) with
      | false => rfl
      | true =>
        exact absurd (containsSub_lower_pyStrip raw _ hq) (by rw [h4]; simp)
    · cases hq : containsSub (lowerL (pyStrip raw)) ("lakh".toList) with
      | false => rfl
      | true =>
        exact absurd (containsSub_lower_pyStrip raw _ hq) (by rw [h5]; simp)
    · simp only [decide_eq_false_iff_not]
      intro hc
      have hpos : 0 < List.countP isNumTok (pySplitWs (pyStrip raw)) := by
        omega
      obtain ⟨w, hw, hnum⟩ := List.countP_pos_iff.mp hpos
      simp only [isNumTok, Bool.and_eq_true] at hnum
      obtain ⟨hne, hdig⟩ := hnum
      set w2 := w.filter
        (fun c => !(c = ',' || c = '.' || c = '(' || c = ')')) with hw2
      cases hcase : w2 with
      | nil => rw [hcase] at hne; simp at hne
      | cons c cs =>
        have hcmem : c ∈ w2 := by rw [hcase]; simp
        have hcw : c ∈ w := List.mem_of_mem_filter hcmem
        have hcdig : c.isDigit = true := by
          have := List.all_eq_true.mp hdig c hcmem
          simpa using this
        have hcraw : c ∈ raw := by
          have hl := mem_pySplitWsGo c (pyStrip raw) [] w hw hcw
          rcases hl with hl | hl
          · simp at hl
          · exact mem_pyStrip c raw hl
        have := List.all_eq_true.mp h1 c hcraw
        simp [hcdig] at this
  unfold keepLineExtract keepStripped
  rw [hfin]
  simp

/-- C5 witness: a wordy line with no financial content is rejected by the
extraction filter. -/
theorem no_financial_marks_line_not_kept_witness :
    keepLineExtract ("The quick brown fox idles along".toList) = false :=
  no_financial_marks_line_not_kept _ (by decide) (by decide) (by decide)
    (by decide) (by decide)

set_option maxRecDepth 200000 in
/-- C5 counterexample: `save_results_to_word`'s filter keeps the line
`General overhead expenses` — a line with no digit, no currency marker and
no amount keyword — merely because it is longer than 10 characters. -/
theorem word_filter_keeps_plain_line_counterexample :
    keepLineWord ("General overhead expenses".toList) = true ∧
    ("General overhead expenses".toList).all (fun c => !c.isDigit) = true ∧
    ("General overhead expenses".toList).all (fun c => !(c = '₹')) = true ∧
    containsSub ("General overhead expenses".toList) ("Rs.".toList) = false ∧
    containsSub (lowerL ("General overhead expenses".toList))
      ("crore".toList) = false ∧
    containsSub (lowerL ("General overhead expenses".toList))
      ("lakh".toList) = false := by
  refine ⟨by decide, by decide, by decide, by decide, by decide, by decide⟩

/-- C4 (amended): when neither the heading phrase nor the subsection token
occurs in either column, the locator falls back to the concatenation
`left + "\n\n" + right` of both columns (never the empty string) provided
the right column text is nonempty; with an empty right column it raises
instead (the fallback reads the never-assigned `right_lower`). -/
theorem locator_no_match_behavior :
    (∀ mh sh l r : List Char,
        containsSub (lowerL l) (lowerL mh) = false →
        containsSub (lowerL r) (lowerL mh) = false →
        containsSub (lowerL l) sh = false →
        containsSub (lowerL r) sh = false →
        r ≠ [] →
        selectColumn mh sh l r =
          some (l ++ '\n' :: '\n' :: r, ColumnChoice.both)) ∧
    (∀ mh sh l : List Char,
        containsSub (lowerL l) (lowerL mh) = false →
        containsSub (lowerL l) sh = false →
        selectColumn mh sh l [] = none) := by
  constructor
  · intro mh sh l r h1 h2 h3 h4 hr
    simp [selectColumn, h1, h2, h3, h4, hr]
  · intro mh sh l h1 h3
    simp [selectColumn, h1, h3]

/-- C4 witness: two plain columns with neither heading nor token yield the
combined both-column text. -/
theorem locator_no_match_behavior_witness :
    selectColumn targetMainHeadingConsolidated targetSubHeading
        ("alpha".toList) ("beta".toList) =
      some ("alpha".toList ++ '\n' :: '\n' :: "beta".toList,
        ColumnChoice.both) :=
  locator_no_match_behavior.1 targetMainHeadingConsolidated targetSubHeading
    ("alpha".toList) ("beta".toList) (by decide) (by decide) (by decide)
    (by decide) (by decide)

/-- C4 counterexample: with neither heading nor token present the locator
returns the nonempty combined text `alpha\n\nbeta`, not the empty string
the claim asserts. -/
theorem locator_no_match_counterexample :
    selectColumn targetMainHeadingConsolidated targetSubHeading
        ("alpha".toList) ("beta".toList) =
      some ("alpha\n\nbeta".toList, ColumnChoice.both) ∧
    ("alpha\n\nbeta".toList : List Char) ≠ [] := by
  refine ⟨by decide, by decide⟩

/-- C2 (amended): in `updated_ready.py`, a candidate page is kept exactly
when stage 1 returns a dict with relevance `Relevant` and confidence at
least 0.85 and stage 2 also returns a dict with relevance `Relevant`.
(`ready_pipeline.py`'s substring gate does not satisfy the claim; see the
counterexample.) -/
theorem updated_gate_iff (s1 s2 : JVal) :
    keepPageU s1 s2 = some true ↔ specKeepPage s1 s2 := by
  unfold keepPageU specKeepPage
  by_cases h1 : relevanceOf s1 = some "Relevant"
  · rw [if_pos h1]
    cases hc : confidenceRead s1 with
    | none => simp [h1]
    | some c =>
      by_cases hge : (0.85 : ℚ) ≤ c
      · simp [h1, hge]
      · simp [h1, hge]
  · rw [if_neg h1]
    simp [h1]

/-- C2 witness: a parsed Relevant/0.9 stage-1 result and a Relevant stage-2
result are kept. -/
theorem updated_gate_iff_witness :
    keepPageU stage1RelevantJson stage2RelevantJson = some true :=
  (updated_gate_iff stage1RelevantJson stage2RelevantJson).mpr
    ⟨rfl, ⟨0.9, rfl, by norm_num⟩, rfl⟩

set_option maxRecDepth 400000 in
/-- C2 counterexample: `ready_pipeline.py`'s gate keeps a page whose stage-1
response declares relevance `Non Relevant` (with confidence 0.99), because
the check is a substring test and `Non Relevant` contains `Relevant`. -/
theorem ready_gate_counterexample :
    keepPageR stage1NonRelevantResp stage2RelevantResp = some true ∧
    containsSub stage1NonRelevantResp
      ("\x22relevance\x22: \x22Relevant\x22".toList) = false ∧
    containsSub stage1NonRelevantResp
      ("\x22relevance\x22: \x22Non Relevant\x22".toList) = true := by
  refine ⟨?_, by decide, by decide⟩
  have hc1 : containsSub stage1NonRelevantResp ("Relevant".toList) = true := by
    decide
  have hc2 : containsSub stage1NonRelevantResp
      ("confidence".toList) = true := by decide
  have htok : searchTok matchConf stage1NonRelevantResp =
      some ("0.99".toList) := by decide
  have ha1 : (("0.99".toList).takeWhile Char.isDigit).foldl
      (fun n c => 10 * n + (c.toNat - 48)) 0 = 0 := by decide
  have ha2 : ((("0.99".toList).dropWhile Char.isDigit).drop 1).foldl
      (fun n c => 10 * n + (c.toNat - 48)) 0 = 99 := by decide
  have ha3 : ((("0.99".toList).dropWhile Char.isDigit).drop 1).length = 2 := by
    decide
  have hfl : floatOfToken ("0.99".toList) = some ((99 : ℚ) / 100) := by
    rw [floatOfToken, if_pos (by decide), ha1, ha2, ha3]
    norm_num
  have hge : ((0.85 : ℚ) ≤ (99 : ℚ) / 100) = True := by norm_num
  have hsub : containsSub stage2RelevantResp
      ("\x22relevance\x22: \x22Relevant\x22".toList) = true := by decide
  simp at hc1 hc2 htok hfl hsub
  simp [keepPageR, hc1, hc2, htok, hfl, hge, hsub]

/-- C3: response-handling behaviour per parser.  The two `updated_ready.py`
parsers are total and stage their fallbacks as the claim says (direct
parse, then the regex-extracted span, then the default object or empty
list); `ready_pipeline.py`'s table-extraction handler instead raises
(`resp.output_text` does not exist) whenever the direct parse fails. -/
theorem response_parsing_behavior :
    (∀ jl resp v, jl resp = some v →
        parse_llama_json_response jl resp = v) ∧
    (∀ jl resp sp v, jl resp = none → braceSpan resp = some sp →
        jl sp = some v → parse_llama_json_response jl resp = v) ∧
    (∀ jl resp sp, jl resp = none → braceSpan resp = some sp →
        jl sp = none →
        parse_llama_json_response jl resp = defaultClassification) ∧
    (∀ jl resp, jl resp = none → braceSpan resp = none →
        parse_llama_json_response jl resp = defaultClassification) ∧
    (∀ jl resp v, jl resp = some v → extractTableParseU jl resp = v) ∧
    (∀ jl resp sp v, jl resp = none → bracketSpan resp = some sp →
        jl sp = some v → extractTableParseU jl resp = v) ∧
    (∀ jl resp sp, jl resp = none → bracketSpan resp = some sp →
        jl sp = none → extractTableParseU jl resp = JVal.jarr []) ∧
    (∀ jl resp, jl resp = none → bracketSpan resp = none →
        extractTableParseU jl resp = JVal.jarr []) ∧
    (∀ jl resp, jl resp = none →
        extractTableParseR jl resp =
          Except.error "AttributeError: output_text") := by
  refine ⟨?_, ?_, ?_, ?_, ?_, ?_, ?_, ?_, ?_⟩
  · intro jl resp v h
    simp [parse_llama_json_response, h]
  · intro jl resp sp v h1 h2 h3
    simp [parse_llama_json_response, h1, h2, h3]
  · intro jl resp sp h1 h2 h3
    simp [parse_llama_json_response, h1, h2, h3]
  · intro jl resp h1 h2
    simp [parse_llama_json_response, h1, h2]
  · intro jl resp v h
    simp [extractTableParseU, h]
  · intro jl resp sp v h1 h2 h3
    simp [extractTableParseU, h1, h2, h3]
  · intro jl resp sp h1 h2 h3
    simp [extractTableParseU, h1, h2, h3]
  · intro jl resp h1 h2
    simp [extractTableParseU, h1, h2]
  · intro jl resp h
    simp [extractTableParseR, h]

/-- C3 demonstration at the failing input: with a parser that rejects the
malformed response `not json`, `updated_ready.py`'s helper returns the
default classification while `ready_pipeline.py`'s table handler raises. -/
theorem response_parsing_behavior_witness :
    parse_llama_json_response (fun _ => none) ("not json".toList) =
      defaultClassification ∧
    extractTableParseR (fun _ => none) ("not json".toList) =
      Except.error "AttributeError: output_text" :=
  ⟨response_parsing_behavior.2.2.2.1 (fun _ => none) ("not json".toList)
      rfl (by decide),
   response_parsing_behavior.2.2.2.2.2.2.2.2 (fun _ => none)
      ("not json".toList) rfl⟩

/-- C10: `HostedLLM._call` is total over its inputs: every exception raised
while sending the gateway request, literal-evaluating the response text, or
reading its `output` field is caught and surfaces as the ordinary response
string `LLM Call Failed: <error>`; only a fully successful call returns the
stripped, template-free output. -/
theorem hosted_call_total :
    (∀ net lev prompt e, net (llamaPromptTemplate prompt) = .error e →
        hostedCall net lev prompt = "LLM Call Failed: ".toList ++ e) ∧
    (∀ net lev prompt resp e, net (llamaPromptTemplate prompt) = .ok resp →
        lev resp = .error e →
        hostedCall net lev prompt = "LLM Call Failed: ".toList ++ e) ∧
    (∀ net lev prompt resp d, net (llamaPromptTemplate prompt) = .ok resp →
        lev resp = .ok d → lookupOutput d ("output".toList) = none →
        hostedCall net lev prompt =
          "LLM Call Failed: ".toList ++ "\x27output\x27".toList) ∧
    (∀ net lev prompt resp d out,
        net (llamaPromptTemplate prompt) = .ok resp → lev resp = .ok d →
        lookupOutput d ("output".toList) = some out →
        hostedCall net lev prompt =
          pyStrip (removeAll (llamaPromptTemplate prompt) out)) := by
  refine ⟨?_, ?_, ?_, ?_⟩
  · intro net lev prompt e h
    simp [hostedCall, h]
  · intro net lev prompt resp e h1 h2
    simp [hostedCall, h1, h2]
  · intro net lev prompt resp d h1 h2 h3
    simp at h3
    simp [hostedCall, h1, h2, h3]
  · intro net lev prompt resp d out h1 h2 h3
    simp at h3
    simp [hostedCall, h1, h2, h3]

/-- C10 witness: a network failure surfaces as the failure string, which the
`ready_pipeline.py` gate then treats as non-relevant. -/
theorem hosted_call_total_witness :
    hostedCall (fun _ => .error ("timeout".toList)) (fun _ => .ok [])
        ("ping".toList) = "LLM Call Failed: ".toList ++ "timeout".toList ∧
    keepPageR ("LLM Call Failed: timeout".toList) ("".toList) = some false :=
  ⟨hosted_call_total.1 (fun _ => .error ("timeout".toList)) (fun _ => .ok [])
      ("ping".toList) ("timeout".toList) rfl,
   by decide⟩

/-- C9 (amended): a sheet name is the section-derived name whenever that
fits the 31-character limit; a longer derived name is replaced by the
generic `Table_<counter>` name (not a truncation), which itself observes
the limit whenever the counter has at most 25 digits. -/
theorem sheet_name_limit (sec : List Char) (i counter : Nat)
    (h : ((Nat.repr counter).toList).length ≤ 25) :
    (sheetNameFinal sec i counter).length ≤ 31 ∧
    (sheetNameFinal sec i counter = derivedSheetName sec i ∨
      sheetNameFinal sec i counter =
        "Table_".toList ++ (Nat.repr counter).toList) := by
  simp only [sheetNameFinal]
  split
  · refine ⟨?_, Or.inr rfl⟩
    rw [List.length_append]
    have h6 : ("Table_".toList).length = 6 := by decide
    omega
  · rename_i hshort
    exact ⟨by omega, Or.inl rfl⟩

/-- C9 witness: the long section identifier's sheet name observes the
limit and is the generic fallback. -/
theorem sheet_name_limit_witness :
    (sheetNameFinal longSectionName 0 5).length ≤ 31 ∧
    (sheetNameFinal longSectionName 0 5 = derivedSheetName longSectionName 0 ∨
      sheetNameFinal longSectionName 0 5 =
        "Table_".toList ++ (Nat.repr 5).toList) :=
  sheet_name_limit longSectionName 0 5 (by decide)

/-- C9 counterexample: for a section identifier whose derived sheet name has
39 characters, the emitted name is `Table_5` — not a truncation of the
derived name (not even a prefix of it), contradicting the claim that
over-long names are truncated to fit. -/
theorem sheet_name_counterexample :
    sheetNameFinal longSectionName 0 5 = "Table_5".toList ∧
    31 < (derivedSheetName longSectionName 0).length ∧
    listPre ("Table_5".toList) (derivedSheetName longSectionName 0) = false ∧
    (derivedSheetName longSectionName 0).take 31 ≠
      sheetNameFinal longSectionName 0 5 := by
  refine ⟨by decide, by decide, by decide, by decide⟩

set_option maxRecDepth 400000 in
/-- C1 counterexample: on the scenario text exactly as the spec writes it
(single spaces before the amounts), the section extractor does return the
whole section, but both data lines split into a single cell under the
2-or-more-space delimiter, so no row reaches the two-cell minimum and no
text-derived table is produced — not the claimed two rows. -/
theorem scenario_single_space_counterexample :
    sectionText scenarioText = some scenarioText ∧
    textTable scenarioText = none ∧
    textTable scenarioText ≠
      some ⟨["Description".toList, "Amount".toList],
        [["Claims against company".toList, "₹ 10,00,000".toList],
         ["Grand Total".toList, "₹ 10,00,000".toList]]⟩ := by
  refine ⟨by decide, by decide, by decide⟩

set_option maxRecDepth 400000 in
/-- C1 (amended): with the descriptions separated from the amounts by at
least two spaces — the delimiter the reconstructor splits on — the section
extractor returns the full section starting at `b) Contingent` with both
data lines, and the table reconstructor yields exactly the two rows
`Claims against company | ₹ 10,00,000` and `Grand Total | ₹ 10,00,000`
under the columns Description and Amount. -/
theorem scenario_two_space_pipeline :
    sectionText scenarioTextWide = some scenarioTextWide ∧
    listPre ("b) Contingent".toList) scenarioTextWide = true ∧
    containsSub scenarioTextWide
      ("Claims against company  ₹ 10,00,000".toList) = true ∧
    containsSub scenarioTextWide ("Grand Total  ₹ 10,00,000".toList) = true ∧
    textTable scenarioTextWide =
      some ⟨["Description".toList, "Amount".toList],
        [["Claims against company".toList, "₹ 10,00,000".toList],
         ["Grand Total".toList, "₹ 10,00,000".toList]]⟩ := by
  refine ⟨by decide, by decide, by decide, by decide, by decide⟩
